import Mathlib

/-!
# require-label-prefix: the issue classifier and the remediation run

A shallow embedding of `issues.go`: the Go functions `labelsContainPrefix`
and `issuesToModify` become Lean functions over records that carry the
fields of the go-github types the code reads, and `processIssues` becomes a
function of the tracker's answers that returns the error, the calls made and
the lines printed.

Modelling conventions
* A Go `string` is a Lean `String`; `strings.HasPrefix` compares the two
  strings position by position, as the Go standard library does.  Go compares
  bytes and Lean code points; on UTF-8 text the two comparisons agree.
* A Go pointer field (`*string`, `*Milestone`, ...) is an `Option`; `nil` is
  `none`.  The go-github getters (`GetName`, `GetMilestone`, ...) return the
  zero value for a `nil` field.
* The elements of `[]*github.Issue` are the issue records themselves: the
  listing call never yields a `nil` element.
* A `for ... range` loop is a left fold over the slice, `continue` returns
  the accumulator unchanged, `append(xs, x)` is `xs ++ [x]`.
* A field left out of a Go composite literal has its zero value; the
  structures below give every field that zero value as its default.
* The tracker `githubClient.Issues` is a collaborator: each of its methods
  answers from the calls made so far and its arguments.  The `context.Context`
  argument is left out.  A loop with an early `return` is a recursion over the
  slice that stops at the `return`.
-/

namespace RequireLabelPrefix

/-! ## Data model (go-github records, restricted to the fields in use) -/

/-- The go-github `Label`: only `Name *string` is read. -/
structure Label where
  Name : Option String := none
  deriving DecidableEq, Repr

/-- The go-github `User`: only `Login *string` is read (by the tests). -/
structure User where
  Login : Option String := none
  deriving DecidableEq, Repr

/-- The go-github `Milestone`; the code only tests the pointer against `nil`. -/
structure Milestone where
  Number : Option Int := none
  Title : Option String := none
  deriving DecidableEq, Repr

/-- The go-github `PullRequestLinks`; the code only tests the pointer against `nil`. -/
structure PullRequestLinks where
  URL : Option String := none
  HTMLURL : Option String := none
  DiffURL : Option String := none
  PatchURL : Option String := none
  deriving DecidableEq, Repr

/-- The go-github `Issue`, with the fields `issues.go` and its tests touch. -/
structure Issue where
  Number : Option Int := none
  Title : Option String := none
  Labels : List Label := []
  Assignees : List User := []
  Milestone : Option Milestone := none
  PullRequestLinks : Option PullRequestLinks := none
  deriving DecidableEq, Repr

/-- Modelled from the spec: the type declaration of `configuration` is not part of
`issues.go`; its fields are the ones `issues.go` and `issues_test.go` read
(`onlyMilestone`, `labelPrefix`, `labelSeparator`, `assignees`, `addLabel`,
`defaultLabel`, `repoOwner`, `repoName`), typed as the spec's PolicyConfiguration. -/
structure configuration where
  repoOwner : String := ""
  repoName : String := ""
  labelPrefix : String := ""
  labelSeparator : String := ""
  onlyMilestone : Bool := false
  assignees : List String := []
  addLabel : Bool := false
  defaultLabel : String := ""
  deriving DecidableEq, Repr

/-! ## Library functions used by `issues.go` -/

/-- The getter `(*Label).GetName`: the name, or `""` when the field is `nil`. -/
def Label.GetName (l : Label) : String :=
  match l.Name with
  | some n => n
  | none => ""

/-- The getter `(*User).GetLogin`: the login, or `""` when the field is `nil`. -/
def User.GetLogin (u : User) : String :=
  match u.Login with
  | some n => n
  | none => ""

/-- The getter `(*Issue).GetNumber`: the number, or `0` when the field is `nil`. -/
def Issue.GetNumber (i : Issue) : Int :=
  match i.Number with
  | some n => n
  | none => 0

/-- The getter `(*Issue).GetTitle`: the title, or `""` when the field is `nil`. -/
def Issue.GetTitle (i : Issue) : String :=
  match i.Title with
  | some n => n
  | none => ""

/-- The getter `(*Issue).GetMilestone`: the milestone pointer. -/
def Issue.GetMilestone (i : Issue) : Option RequireLabelPrefix.Milestone :=
  i.Milestone

/-- The getter `(*Issue).GetPullRequestLinks`: the pull-request marker. -/
def Issue.GetPullRequestLinks (i : Issue) : Option RequireLabelPrefix.PullRequestLinks :=
  i.PullRequestLinks

/-- Go's `strings.HasPrefix(s, p)`, which is
`len(s) >= len(p) && s[0:len(p)] == p`. -/
def HasPrefix (s p : String) : Bool :=
  decide (p.data.length ≤ s.data.length) && decide (s.data.take p.data.length = p.data)

/-- Go's `fmt.Sprintf("%s%s", a, b)`: the two strings, concatenated. -/
def Sprintf_s_s (a b : String) : String :=
  a ++ b

/-! ## `issues.go` -/

/-- The function `labelsContainPrefix` of `issues.go`: the loop returns `true` at
the first label whose name has the prefix `pfx ++ separator`, and `false`
when the slice is exhausted. -/
def labelsContainPrefix : List Label → String → String → Bool
  | [], _, _ => false
  | label :: rest, pfx, separator =>
    if HasPrefix label.GetName (Sprintf_s_s pfx separator) then true
    else labelsContainPrefix rest pfx separator

/-- One iteration of the loop of `issuesToModify`: the accumulator
`issuesRequiringChanges` after the body has run on `issue`. -/
def issuesToModifyStep (config : configuration) (issuesRequiringChanges : List Issue)
    (issue : Issue) : List Issue :=
  if issue.GetPullRequestLinks ≠ none then issuesRequiringChanges
  else if config.onlyMilestone && decide (issue.GetMilestone = none) then issuesRequiringChanges
  else if !labelsContainPrefix issue.Labels config.labelPrefix config.labelSeparator then
    issuesRequiringChanges ++ [issue]
  else issuesRequiringChanges

/-- The function `issuesToModify` of `issues.go`. -/
def issuesToModify (issues : List Issue) (config : configuration) : List Issue :=
  issues.foldl (issuesToModifyStep config) []

/-- The condition under which one loop iteration of `issuesToModify` appends the
issue: none of the two `continue` branches is taken and the label check fails. -/
def appendsIssue (config : configuration) (issue : Issue) : Bool :=
  decide (issue.GetPullRequestLinks = none) &&
    !(config.onlyMilestone && decide (issue.GetMilestone = none)) &&
    !labelsContainPrefix issue.Labels config.labelPrefix config.labelSeparator

/-! ## The tracker: `githubClient.Issues` as a collaborator with a call trace -/

/-- The go-github `IssueListByRepoOptions`: only `State` is set. -/
structure IssueListByRepoOptions where
  State : String := ""
  deriving DecidableEq, Repr

/-- The go-github `IssueComment`: only `Body *string` is set. -/
structure IssueComment where
  Body : Option String := none
  deriving DecidableEq, Repr

/-- One call on `githubClient.Issues`, with its arguments (the context apart). -/
inductive Call where
  | ListByRepo (owner repo : String) (opts : IssueListByRepoOptions)
  | AddLabelsToIssue (owner repo : String) (number : Int) (labels : List String)
  | CreateComment (owner repo : String) (number : Int) (comment : IssueComment)
  deriving DecidableEq, Repr

/-- The service `githubClient.Issues`, an external collaborator: each method answers
from the calls made before it (oldest first) and its arguments.  A Go `error` is its
message, `nil` is `none`; `ListByRepo` yields the issues or an error. -/
structure IssuesService where
  ListByRepo : List Call → String → String → IssueListByRepoOptions → Except String (List Issue)
  AddLabelsToIssue : List Call → String → String → Int → List String → Option String
  CreateComment : List Call → String → String → Int → IssueComment → Option String

/-- What one run of `processIssues` leaves behind: the returned `error`, the calls
made on the tracker (oldest first) and the lines printed. -/
structure Run where
  err : Option String
  trace : List Call
  stdout : List String
  deriving DecidableEq, Repr

/-- The loop of `processIssues` over the flagged issues, from the calls made and the
lines printed so far.  The result of `AddLabelsToIssue` is dropped, as in the code;
a failing `CreateComment` returns at once. -/
def processIssuesLoop (githubClient : IssuesService) (config : configuration) :
    List Issue → List Call → List String → Run
  | [], trace, stdout => { err := none, trace := trace, stdout := stdout }
  | issue :: rest, trace, stdout =>
    let stdout1 := stdout ++
      ["Issue #" ++ toString issue.GetNumber ++ " does not have the required label prefix: \"" ++
        config.labelPrefix ++ config.labelSeparator ++ "\"\n"]
    let labelled : String × List Call :=
      if config.addLabel then
        let _ignored := githubClient.AddLabelsToIssue trace config.repoOwner config.repoName
          issue.GetNumber [config.defaultLabel]
        ("Added default label `" ++ config.defaultLabel ++
            "`. Please consider re-labeling this issue appropriately.",
          trace ++ [Call.AddLabelsToIssue config.repoOwner config.repoName issue.GetNumber
            [config.defaultLabel]])
      else
        ("No label with prefix \"" ++ config.labelPrefix ++ config.labelSeparator ++
            "\" found. Please add the appropriate label.",
          trace)
    let comment := labelled.1
    let trace1 := labelled.2
    let trace2 := trace1 ++
      [Call.CreateComment config.repoOwner config.repoName issue.GetNumber { Body := some comment }]
    match githubClient.CreateComment trace1 config.repoOwner config.repoName issue.GetNumber
        { Body := some comment } with
    | some err => { err := some ("error adding comment: " ++ err), trace := trace2, stdout := stdout1 }
    | none => processIssuesLoop githubClient config rest trace2 stdout1

/-- The function `processIssues` of `issues.go`. -/
def processIssues (githubClient : IssuesService) (config : configuration) : Run :=
  match githubClient.ListByRepo [] config.repoOwner config.repoName { State := "open" } with
  | Except.error err =>
    { err := some ("error getting issues: " ++ err),
      trace := [Call.ListByRepo config.repoOwner config.repoName { State := "open" }],
      stdout := [] }
  | Except.ok issues =>
    processIssuesLoop githubClient config (issuesToModify issues config)
      [Call.ListByRepo config.repoOwner config.repoName { State := "open" }] []

/-! ## The wording of the specification -/

/-- In the words of the specification: the issue has at least one label whose name
starts with `labelPrefix` followed by `labelSeparator`, that is, the characters
of `labelPrefix ++ labelSeparator` are an initial segment of the characters of
the name.  A label whose name is missing counts with the empty name. -/
def specHasLabelWithPrefix (config : configuration) (issue : Issue) : Prop :=
  ∃ l ∈ issue.Labels,
    (config.labelPrefix ++ config.labelSeparator).data <+: (l.Name.getD "").data

instance (config : configuration) (issue : Issue) :
    Decidable (specHasLabelWithPrefix config issue) := by
  unfold specHasLabelWithPrefix
  infer_instance

/-- In the words of the specification: the issue passes the milestone gate, that
is, `onlyMilestone` is off or the issue has a milestone. -/
def specPassesMilestoneGate (config : configuration) (issue : Issue) : Prop :=
  config.onlyMilestone = false ∨ issue.Milestone ≠ none

instance (config : configuration) (issue : Issue) :
    Decidable (specPassesMilestoneGate config issue) := by
  unfold specPassesMilestoneGate
  infer_instance

/-! ## The calls a run of `processIssues` is expected to make -/

/-- The listing call that opens every run: the open issues of the repository. -/
def listCall (config : configuration) : Call :=
  Call.ListByRepo config.repoOwner config.repoName { State := "open" }

/-- The body of the comment of a run: it announces the default label when
`addLabel` is set, and the missing prefix otherwise. -/
def specCommentBody (config : configuration) : String :=
  if config.addLabel then
    "Added default label `" ++ config.defaultLabel ++
      "`. Please consider re-labeling this issue appropriately."
  else
    "No label with prefix \"" ++ config.labelPrefix ++ config.labelSeparator ++
      "\" found. Please add the appropriate label."

/-- The add-label call for a flagged issue: one call with the default label alone
when `addLabel` is set, none otherwise. -/
def specAddLabelCalls (config : configuration) (issue : Issue) : List Call :=
  if config.addLabel then
    [Call.AddLabelsToIssue config.repoOwner config.repoName issue.GetNumber [config.defaultLabel]]
  else []

/-- The create-comment call for a flagged issue. -/
def specCommentCall (config : configuration) (issue : Issue) : Call :=
  Call.CreateComment config.repoOwner config.repoName issue.GetNumber
    { Body := some (specCommentBody config) }

/-- The remediation calls for a flagged issue: the add-label call, if any, then the
create-comment call. -/
def specRemediationCalls (config : configuration) (issue : Issue) : List Call :=
  specAddLabelCalls config issue ++ [specCommentCall config issue]

/-- The diagnostic line printed for a flagged issue. -/
def specPrintedLine (config : configuration) (issue : Issue) : String :=
  "Issue #" ++ toString issue.GetNumber ++ " does not have the required label prefix: \"" ++
    config.labelPrefix ++ config.labelSeparator ++ "\"\n"

/-- The issues at the positions marked `true`: `keep` is read along `issues`. -/
def selectPositions : List Bool → List Issue → List Issue
  | true :: keep, issue :: issues => issue :: selectPositions keep issues
  | false :: keep, _ :: issues => selectPositions keep issues
  | _, _ => []

/-- Every create-comment call of a run over the flagged issues succeeds: the call for
a flagged issue `x`, made after the listing call, the remediation calls of the flagged
issues before `x` and the add-label call of `x` (if any), returns no error. -/
def commentCallsSucceed (githubClient : IssuesService) (config : configuration)
    (flagged : List Issue) : Prop :=
  ∀ pre x post, flagged = pre ++ x :: post →
    githubClient.CreateComment
      (listCall config :: pre.flatMap (specRemediationCalls config) ++
        specAddLabelCalls config x)
      config.repoOwner config.repoName x.GetNumber
      { Body := some (specCommentBody config) } = none

/-- Two issues that differ at most in their assignees. -/
def sameExceptAssignees (a b : Issue) : Prop :=
  a.Number = b.Number ∧ a.Title = b.Title ∧ a.Labels = b.Labels ∧
    a.Milestone = b.Milestone ∧ a.PullRequestLinks = b.PullRequestLinks

/-! ## The table of `TestIssuesToModify` (`issues_test.go`) -/

namespace TestIssuesToModify

def issue1Title : String := "issue1"
def issue2Title : String := "issue2"
def issue3Title : String := "issue3"
def labelPrefix : String := "prefix"
def separator : String := "/"
def labelNameMatching : String := labelPrefix ++ separator ++ "suffix"
def user1 : String := "user1"
def user2 : String := "user2"
def user3 : String := "user3"

/-- The configuration of the test cases that leave `assignees` out. -/
def configPlain : configuration :=
  { onlyMilestone := false, labelPrefix := labelPrefix, labelSeparator := separator }

/-- The configuration of the test cases that set `assignees`. -/
def configAssignees : configuration :=
  { onlyMilestone := false, labelPrefix := labelPrefix, labelSeparator := separator,
    assignees := [user1, user2, user3] }

/-- Input of `single_issue_contains_label`. -/
def inputSingleIssueContainsLabel : List Issue :=
  [{ Title := some issue1Title, Labels := [{ Name := some labelNameMatching }] }]

/-- Input of `single_pull_request`. -/
def inputSinglePullRequest : List Issue :=
  [{ Title := some issue1Title, PullRequestLinks := some {} }]

/-- Input of `multiple_issues`. -/
def inputMultipleIssues : List Issue :=
  [{ Title := some issue1Title, Labels := [{ Name := some labelNameMatching }] },
   { Title := some issue2Title }]

/-- Input of `issue_with_specified_assignees`. -/
def inputIssueWithSpecifiedAssignees : List Issue :=
  [{ Title := some issue1Title, Assignees := [{ Login := some user1 }] },
   { Title := some issue2Title },
   { Title := some issue3Title,
     Assignees := [{ Login := some user1 }, { Login := some user2 }, { Login := some user3 }] }]

/-- Input of `no_assignee_matched`. -/
def inputNoAssigneeMatched : List Issue :=
  [{ Title := some issue1Title, Assignees := [{ Login := some "user4" }] }]

/-- Input of `assignees_not_specified`. -/
def inputAssigneesNotSpecified : List Issue :=
  [{ Title := some issue1Title },
   { Title := some issue2Title, Assignees := [{ Login := some user2 }] }]

/-- Input of `assignees_with_label`. -/
def inputAssigneesWithLabel : List Issue :=
  [{ Title := some issue1Title, Assignees := [{ Login := some user1 }],
     Labels := [{ Name := some labelNameMatching }] },
   { Title := some issue2Title, Assignees := [{ Login := some user2 }] }]

end TestIssuesToModify

/-! ## Example runs of `processIssues` -/

namespace ExampleRun

/-- A configuration that labels and comments. -/
def configAddLabel : configuration :=
  { repoOwner := "owner", repoName := "repo", labelPrefix := "type", labelSeparator := "/",
    addLabel := true, defaultLabel := "triage" }

/-- A configuration that only comments. -/
def configCommentOnly : configuration :=
  { repoOwner := "owner", repoName := "repo", labelPrefix := "type", labelSeparator := "/",
    addLabel := false, defaultLabel := "triage" }

def issue41 : Issue := { Number := some 41, Labels := [{ Name := some "type/bug" }] }
def issue42 : Issue := { Number := some 42 }
def pull43 : Issue := { Number := some 43, PullRequestLinks := some {} }
def issue44 : Issue := { Number := some 44, Labels := [{ Name := some "typeless" }] }
def issue45 : Issue := { Number := some 45 }

/-- The open issues of the example repository; `issue42`, `issue44` and `issue45`
are flagged. -/
def openIssues : List Issue := [issue41, issue42, pull43, issue44, issue45]

/-- A tracker on which every call succeeds. -/
def trackerOk : IssuesService :=
  { ListByRepo := fun _ _ _ _ => Except.ok openIssues,
    AddLabelsToIssue := fun _ _ _ _ _ => none,
    CreateComment := fun _ _ _ _ _ => none }

/-- A tracker on which every add-label call fails and every other call succeeds. -/
def trackerAddLabelFails : IssuesService :=
  { ListByRepo := fun _ _ _ _ => Except.ok openIssues,
    AddLabelsToIssue := fun _ _ _ _ _ => some "label does not exist",
    CreateComment := fun _ _ _ _ _ => none }

/-- A tracker on which the listing call fails. -/
def trackerListFails : IssuesService :=
  { ListByRepo := fun _ _ _ _ => Except.error "rate limited",
    AddLabelsToIssue := fun _ _ _ _ _ => none,
    CreateComment := fun _ _ _ _ _ => none }

/-- A tracker on which the create-comment call on issue 44 fails. -/
def trackerCommentFails : IssuesService :=
  { ListByRepo := fun _ _ _ _ => Except.ok openIssues,
    AddLabelsToIssue := fun _ _ _ _ _ => none,
    CreateComment := fun _ _ _ number _ => if number = 44 then some "issue locked" else none }

end ExampleRun

/-! ## Auxiliary lemmas -/

/-- `HasPrefix s p` holds exactly when the characters of `p` are an initial
segment of the characters of `s`. -/
theorem hasPrefix_iff_isPrefix (s p : String) :
    HasPrefix s p = true ↔ p.data <+: s.data := by
  unfold HasPrefix
  rw [Bool.and_eq_true, decide_eq_true_iff, decide_eq_true_iff, List.prefix_iff_eq_take]
  constructor
  · rintro ⟨_, h⟩
    exact h.symm
  · intro h
    refine ⟨?_, h.symm⟩
    have := congrArg List.length h
    rw [List.length_take] at this
    omega

/-- An initial segment of the characters is a prefix of the string: the rest
can be named. -/
theorem isPrefix_data_iff_exists_append (s p : String) :
    p.data <+: s.data ↔ ∃ rest : String, s = p ++ rest := by
  constructor
  · rintro ⟨t, ht⟩
    refine ⟨⟨t⟩, ?_⟩
    apply String.ext
    rw [String.data_append, ht]
  · rintro ⟨rest, rfl⟩
    exact ⟨rest.data, by rw [String.data_append]⟩

/-- The loop of `labelsContainPrefix` finds a label exactly when one exists. -/
theorem labelsContainPrefix_iff_exists (labels : List Label) (pfx separator : String) :
    labelsContainPrefix labels pfx separator = true ↔
      ∃ l ∈ labels, HasPrefix l.GetName (pfx ++ separator) = true := by
  induction labels with
  | nil => simp [labelsContainPrefix]
  | cons label rest ih =>
    simp only [labelsContainPrefix, Sprintf_s_s, List.mem_cons, exists_eq_or_imp]
    by_cases h : HasPrefix label.GetName (pfx ++ separator) = true
    · simp [h]
    · simp [h, ih]

/-- One loop iteration appends the issue or leaves the accumulator as it is. -/
theorem issuesToModifyStep_eq (config : configuration) (acc : List Issue) (issue : Issue) :
    issuesToModifyStep config acc issue =
      acc ++ (if appendsIssue config issue then [issue] else []) := by
  unfold issuesToModifyStep appendsIssue
  by_cases h1 : issue.GetPullRequestLinks = none
  · by_cases h2 : (config.onlyMilestone && decide (issue.GetMilestone = none)) = true
    · simp [h1, h2]
    · by_cases h3 : labelsContainPrefix issue.Labels config.labelPrefix config.labelSeparator = true
      · simp [h1, h2, h3]
      · simp [h1, h2, h3]
  · simp [h1]

/-- The loop, started from any accumulator, appends the issues that pass the
three checks, in input order. -/
theorem foldl_issuesToModifyStep (config : configuration) (issues acc : List Issue) :
    issues.foldl (issuesToModifyStep config) acc =
      acc ++ issues.filter (appendsIssue config) := by
  induction issues generalizing acc with
  | nil => simp
  | cons issue rest ih =>
    rw [List.foldl_cons, ih, issuesToModifyStep_eq, List.filter_cons]
    by_cases h : appendsIssue config issue = true
    · simp [h]
    · simp [h]

/-- The loop of `issuesToModify` is a filter of its input. -/
theorem issuesToModify_eq_filter_appendsIssue (issues : List Issue) (config : configuration) :
    issuesToModify issues config = issues.filter (appendsIssue config) := by
  unfold issuesToModify
  rw [foldl_issuesToModifyStep, List.nil_append]

/-- The getter `GetName` reads a missing name as the empty string. -/
theorem getName_eq_getD (l : Label) : l.GetName = l.Name.getD "" := by
  cases l with
  | mk n => cases n <;> rfl

/-- The label check of the code agrees with the specification's wording. -/
theorem labelsContainPrefix_iff_spec (config : configuration) (issue : Issue) :
    labelsContainPrefix issue.Labels config.labelPrefix config.labelSeparator = true ↔
      specHasLabelWithPrefix config issue := by
  rw [labelsContainPrefix_iff_exists]
  unfold specHasLabelWithPrefix
  simp only [hasPrefix_iff_isPrefix, getName_eq_getD]

/-- The issue is appended exactly when it is no pull request, passes the
milestone gate and has no label with the required prefix. -/
theorem appendsIssue_iff (config : configuration) (issue : Issue) :
    appendsIssue config issue = true ↔
      issue.PullRequestLinks = none ∧ specPassesMilestoneGate config issue ∧
        ¬ specHasLabelWithPrefix config issue := by
  rw [← labelsContainPrefix_iff_spec]
  unfold appendsIssue specPassesMilestoneGate Issue.GetPullRequestLinks Issue.GetMilestone
  cases config.onlyMilestone <;> simp [and_assoc]

/-- Membership in the result of `issuesToModify`. -/
theorem mem_issuesToModify_iff (issues : List Issue) (config : configuration) (issue : Issue) :
    issue ∈ issuesToModify issues config ↔
      issue ∈ issues ∧ issue.PullRequestLinks = none ∧ specPassesMilestoneGate config issue ∧
        ¬ specHasLabelWithPrefix config issue := by
  rw [issuesToModify_eq_filter_appendsIssue, List.mem_filter, appendsIssue_iff]

/-- The checks of the loop body never read the assignees of the issue. -/
theorem appendsIssue_withAssignees (config : configuration) (issue : Issue)
    (assignees : List User) :
    appendsIssue config { issue with Assignees := assignees } = appendsIssue config issue :=
  rfl

/-! ## The claims about `issuesToModify` and `labelsContainPrefix` -/

open TestIssuesToModify

/-- C1: for a configuration whose `assignees` list is empty, `issuesToModify` returns
exactly the input list filtered, in input order, by the predicate "no pull-request
marker, and (`onlyMilestone` is false or the issue has a milestone), and no label
name starts with `labelPrefix ++ labelSeparator`"; the assignees of the issues
play no role: replacing them by any others selects the same issues. -/
theorem issuesToModify_eq_filter_of_no_config_assignees (issues : List Issue)
    (config : configuration) (_hassignees : config.assignees = []) :
    issuesToModify issues config =
        issues.filter (fun issue => decide (issue.PullRequestLinks = none ∧
          (config.onlyMilestone = false ∨ issue.Milestone ≠ none) ∧
          ¬ ∃ l ∈ issue.Labels,
            (config.labelPrefix ++ config.labelSeparator).data <+: (l.Name.getD "").data)) ∧
      ∀ f : Issue → List User,
        issuesToModify (issues.map (fun issue => { issue with Assignees := f issue })) config =
          (issuesToModify issues config).map (fun issue => { issue with Assignees := f issue }) := by
  constructor
  · rw [issuesToModify_eq_filter_appendsIssue]
    apply List.filter_congr
    intro issue _
    rw [Bool.eq_iff_iff, appendsIssue_iff, decide_eq_true_iff]
    rfl
  · intro f
    rw [issuesToModify_eq_filter_appendsIssue, issuesToModify_eq_filter_appendsIssue,
      List.filter_map]
    rfl

/-- Witness of C1 on the test case `assignees_not_specified`: both issues are returned,
the one with an assignee included. -/
theorem issuesToModify_eq_filter_of_no_config_assignees_witness :
    configPlain.assignees = [] ∧
      issuesToModify inputAssigneesNotSpecified configPlain = inputAssigneesNotSpecified ∧
      issuesToModify inputAssigneesNotSpecified configPlain =
        inputAssigneesNotSpecified.filter (fun issue => decide (issue.PullRequestLinks = none ∧
          (configPlain.onlyMilestone = false ∨ issue.Milestone ≠ none) ∧
          ¬ ∃ l ∈ issue.Labels,
            (configPlain.labelPrefix ++ configPlain.labelSeparator).data <+:
              (l.Name.getD "").data)) :=
  ⟨rfl, by decide,
    (issuesToModify_eq_filter_of_no_config_assignees inputAssigneesNotSpecified configPlain rfl).1⟩

/-- C2 (the code at the test case `no_assignee_matched`): `config.assignees` is
`[user1, user2, user3]`, the only issue is unlabelled and assigned to `user4`, whose
login is not in `config.assignees`, and `issuesToModify` returns that issue; the
test expects the empty list. -/
theorem issuesToModify_no_assignee_matched :
    configAssignees.assignees = ["user1", "user2", "user3"] ∧
      inputNoAssigneeMatched =
        [{ Title := some "issue1", Assignees := [{ Login := some "user4" }] }] ∧
      "user4" ∉ configAssignees.assignees ∧
      issuesToModify inputNoAssigneeMatched configAssignees = inputNoAssigneeMatched ∧
      issuesToModify inputNoAssigneeMatched configAssignees ≠ [] := by
  decide

/-- C3: whatever the configuration (its `assignees` list may be non-empty), an input
issue with zero assignees that has no pull-request marker, passes the milestone gate
and has no label starting with `labelPrefix ++ labelSeparator` is in the result of
`issuesToModify`. -/
theorem unassigned_issue_mem_issuesToModify (issues : List Issue) (config : configuration)
    (issue : Issue) (hmem : issue ∈ issues) (_hunassigned : issue.Assignees = [])
    (hpr : issue.PullRequestLinks = none)
    (hmilestone : config.onlyMilestone = false ∨ issue.Milestone ≠ none)
    (hlabel : ¬ ∃ l ∈ issue.Labels,
      (config.labelPrefix ++ config.labelSeparator).data <+: (l.Name.getD "").data) :
    issue ∈ issuesToModify issues config :=
  (mem_issuesToModify_iff issues config issue).2 ⟨hmem, hpr, hmilestone, hlabel⟩

/-- Witness of C3: the unassigned `issue2` of the test case
`issue_with_specified_assignees`, under a configuration that names three assignees. -/
theorem unassigned_issue_mem_issuesToModify_witness :
    configAssignees.assignees ≠ [] ∧
      ({ Title := some issue2Title } : Issue) ∈
        issuesToModify inputIssueWithSpecifiedAssignees configAssignees :=
  ⟨by decide,
    unassigned_issue_mem_issuesToModify inputIssueWithSpecifiedAssignees configAssignees
      { Title := some issue2Title } (by decide) rfl rfl (by decide) (by decide)⟩

/-- C4 (the code at the test case `issue_with_specified_assignees`): with
`config.assignees = [user1, user2, user3]` and the unlabelled issues `issue1`
(assigned `user1`), `issue2` (no assignees), `issue3` (assigned all three),
`issuesToModify` returns all three issues, the unassigned `issue2` among them; the
test expects `issue1` and `issue3` only. -/
theorem issuesToModify_issue_with_specified_assignees :
    configAssignees.assignees = ["user1", "user2", "user3"] ∧
      issuesToModify inputIssueWithSpecifiedAssignees configAssignees =
        [{ Title := some "issue1", Assignees := [{ Login := some "user1" }] },
         { Title := some "issue2" },
         { Title := some "issue3",
           Assignees := [{ Login := some "user1" }, { Login := some "user2" },
             { Login := some "user3" }] }] ∧
      ∃ issue ∈ issuesToModify inputIssueWithSpecifiedAssignees configAssignees,
        ¬ ∃ u ∈ issue.Assignees, u.GetLogin ∈ configAssignees.assignees := by
  refine ⟨by decide, by decide, { Title := some "issue2" }, by decide, by decide⟩

/-- C5: no issue whose pull-request marker is present is in the result of
`issuesToModify`, whatever its other fields and whatever the configuration. -/
theorem pull_request_not_mem_issuesToModify (issues : List Issue) (config : configuration)
    (issue : Issue) (hpr : issue.PullRequestLinks ≠ none) :
    issue ∉ issuesToModify issues config := by
  rw [mem_issuesToModify_iff]
  exact fun h => hpr h.2.1

/-- Witness of C5: the pull request of the test case `single_pull_request`. -/
theorem pull_request_not_mem_issuesToModify_witness :
    ({ Title := some issue1Title, PullRequestLinks := some {} } : Issue) ∈
        inputSinglePullRequest ∧
      ({ Title := some issue1Title, PullRequestLinks := some {} } : Issue) ∉
        issuesToModify inputSinglePullRequest configPlain :=
  ⟨by decide,
    pull_request_not_mem_issuesToModify inputSinglePullRequest configPlain
      { Title := some issue1Title, PullRequestLinks := some {} } (by decide)⟩

/-- C6: under a configuration with `onlyMilestone = true`, no issue without a
milestone is in the result of `issuesToModify`, whatever its labels. -/
theorem no_milestone_not_mem_issuesToModify (issues : List Issue) (config : configuration)
    (issue : Issue) (honly : config.onlyMilestone = true) (hmilestone : issue.Milestone = none) :
    issue ∉ issuesToModify issues config := by
  rw [mem_issuesToModify_iff]
  rintro ⟨_, _, h | h, _⟩
  · rw [honly] at h
    exact Bool.noConfusion h
  · exact h hmilestone

/-- Witness of C6: an issue without labels and without a milestone, under
`onlyMilestone = true` with prefix `"prefix"` and separator `"/"`. -/
theorem no_milestone_not_mem_issuesToModify_witness :
    ({ Title := some "issue1" } : Issue) ∈ [({ Title := some "issue1" } : Issue)] ∧
      ({ Title := some "issue1" } : Issue) ∉
        issuesToModify [{ Title := some "issue1" }]
          { onlyMilestone := true, labelPrefix := "prefix", labelSeparator := "/" } :=
  ⟨by decide,
    no_milestone_not_mem_issuesToModify [{ Title := some "issue1" }]
      { onlyMilestone := true, labelPrefix := "prefix", labelSeparator := "/" }
      { Title := some "issue1" } rfl rfl⟩

/-- C7: an issue with at least one label whose name starts with
`labelPrefix ++ labelSeparator` is never in the result of `issuesToModify`; and an
input issue with no such label, no pull-request marker, that passes the milestone
gate and the assignee gate (`config.assignees` empty, or all assignees of the issue
in `config.assignees`) is in the result. -/
theorem label_check_issuesToModify (issues : List Issue) (config : configuration)
    (issue : Issue) :
    ((∃ l ∈ issue.Labels,
        (config.labelPrefix ++ config.labelSeparator).data <+: (l.Name.getD "").data) →
      issue ∉ issuesToModify issues config) ∧
    (issue ∈ issues →
      (¬ ∃ l ∈ issue.Labels,
        (config.labelPrefix ++ config.labelSeparator).data <+: (l.Name.getD "").data) →
      issue.PullRequestLinks = none →
      (config.onlyMilestone = false ∨ issue.Milestone ≠ none) →
      (config.assignees = [] ∨ ∀ u ∈ issue.Assignees, u.GetLogin ∈ config.assignees) →
      issue ∈ issuesToModify issues config) := by
  constructor
  · intro hlabel hmem
    exact ((mem_issuesToModify_iff issues config issue).1 hmem).2.2.2 hlabel
  · intro hmem hlabel hpr hmilestone _
    exact (mem_issuesToModify_iff issues config issue).2 ⟨hmem, hpr, hmilestone, hlabel⟩

/-- Witness of C7 on the test case `assignees_with_label`: `issue1` carries
`"prefix/suffix"` and is not returned, `issue2` carries no label, is assigned to
`user2` (a configured assignee) and is returned. -/
theorem label_check_issuesToModify_witness :
    ({ Title := some issue1Title, Assignees := [{ Login := some user1 }],
       Labels := [{ Name := some labelNameMatching }] } : Issue) ∉
        issuesToModify inputAssigneesWithLabel configAssignees ∧
      ({ Title := some issue2Title, Assignees := [{ Login := some user2 }] } : Issue) ∈
        issuesToModify inputAssigneesWithLabel configAssignees :=
  ⟨(label_check_issuesToModify inputAssigneesWithLabel configAssignees
      { Title := some issue1Title, Assignees := [{ Login := some user1 }],
        Labels := [{ Name := some labelNameMatching }] }).1 (by decide),
    (label_check_issuesToModify inputAssigneesWithLabel configAssignees
      { Title := some issue2Title, Assignees := [{ Login := some user2 }] }).2
      (by decide) (by decide) rfl (by decide) (by decide)⟩

/-- C8: the result of `issuesToModify` is a subsequence of the input: the returned
issues are elements of the input, in their input order, no issue occurs more often
in the output than in the input, and the output is no longer than the input. -/
theorem issuesToModify_sublist (issues : List Issue) (config : configuration) :
    (issuesToModify issues config).Sublist issues ∧
      (∀ issue, issue ∈ issuesToModify issues config → issue ∈ issues) ∧
      (∀ issue, (issuesToModify issues config).count issue ≤ issues.count issue) ∧
      (issuesToModify issues config).length ≤ issues.length := by
  have hsub : (issuesToModify issues config).Sublist issues := by
    rw [issuesToModify_eq_filter_appendsIssue]
    exact List.filter_sublist issues
  exact ⟨hsub, fun _ h => hsub.subset h, fun _ => hsub.count_le _, hsub.length_le⟩

/-- Witness of C8 on the test case `multiple_issues`: of the two input issues the
second one is returned. -/
theorem issuesToModify_sublist_witness :
    issuesToModify inputMultipleIssues configPlain = [{ Title := some issue2Title }] ∧
      (issuesToModify inputMultipleIssues configPlain).Sublist inputMultipleIssues :=
  ⟨by decide, (issuesToModify_sublist inputMultipleIssues configPlain).1⟩

/-- C9: `labelsContainPrefix` returns `true` if and only if the name of some label
equals `pfx ++ separator ++ rest` for some (possibly empty) string `rest`, where a
label with a missing name has the empty name; the comparison is equality of
strings, so it is case-sensitive and reads no character as a pattern. -/
theorem labelsContainPrefix_iff_exists_rest (labels : List Label) (pfx separator : String) :
    labelsContainPrefix labels pfx separator = true ↔
      ∃ l ∈ labels, ∃ rest : String, l.Name.getD "" = pfx ++ separator ++ rest := by
  rw [labelsContainPrefix_iff_exists]
  simp only [hasPrefix_iff_isPrefix, isPrefix_data_iff_exists_append, getName_eq_getD]

/-- Witness of C9 on the test case `single_issue_contains_label`: the label
`"prefix/suffix"` is `"prefix" ++ "/" ++ "suffix"`. -/
theorem labelsContainPrefix_iff_exists_rest_witness :
    labelsContainPrefix [{ Name := some labelNameMatching }] labelPrefix separator = true :=
  (labelsContainPrefix_iff_exists_rest [{ Name := some labelNameMatching }] labelPrefix
    separator).2 ⟨{ Name := some labelNameMatching }, by decide, "suffix", rfl⟩

/-- C10: for a non-empty separator, a label whose name is exactly the prefix does
not satisfy the policy: `labelsContainPrefix` is `false` on the list of that label
alone, so an input issue carrying only that label, with no pull-request marker, that
passes the milestone and assignee gates, is returned by `issuesToModify`.  With
prefix `"prefix"` and separator `"/"`, `"prefixOther"` does not match and
`"prefix/suffix"` does. -/
theorem label_equal_to_prefix_does_not_match (pfx separator : String)
    (hsep : separator ≠ "") :
    labelsContainPrefix [{ Name := some pfx }] pfx separator = false ∧
      (∀ (issues : List Issue) (config : configuration) (issue : Issue),
        config.labelPrefix = pfx → config.labelSeparator = separator →
        issue ∈ issues → issue.Labels = [{ Name := some pfx }] →
        issue.PullRequestLinks = none →
        (config.onlyMilestone = false ∨ issue.Milestone ≠ none) →
        (config.assignees = [] ∨ ∀ u ∈ issue.Assignees, u.GetLogin ∈ config.assignees) →
        issue ∈ issuesToModify issues config) ∧
      labelsContainPrefix [{ Name := some "prefixOther" }] "prefix" "/" = false ∧
      labelsContainPrefix [{ Name := some "prefix/suffix" }] "prefix" "/" = true := by
  have hdata : separator.data ≠ [] := fun h => hsep (String.ext h)
  have hno : ¬ (pfx ++ separator).data <+: pfx.data := by
    intro h
    have hlen := h.length_le
    rw [String.data_append, List.length_append] at hlen
    have : separator.data.length = 0 := by omega
    exact hdata (List.length_eq_zero.1 this)
  have hfalse : labelsContainPrefix [{ Name := some pfx }] pfx separator = false := by
    rw [← Bool.not_eq_true, labelsContainPrefix_iff_exists]
    rintro ⟨l, hl, hp⟩
    rw [List.mem_singleton] at hl
    subst hl
    exact hno ((hasPrefix_iff_isPrefix _ _).1 hp)
  refine ⟨hfalse, ?_, by decide, by decide⟩
  intro issues config issue hp hs hmem hlabels hpr hmilestone _
  rw [issuesToModify_eq_filter_appendsIssue, List.mem_filter]
  refine ⟨hmem, ?_⟩
  unfold appendsIssue
  rw [hlabels, hp, hs, hfalse]
  unfold Issue.GetPullRequestLinks Issue.GetMilestone
  rcases hmilestone with h | h
  · simp [hpr, h]
  · simp [hpr, h]

/-- Witness of C10 with prefix `"prefix"` and separator `"/"`: an issue whose only
label is `"prefix"` is returned. -/
theorem label_equal_to_prefix_does_not_match_witness :
    ("/" : String) ≠ "" ∧
      labelsContainPrefix [{ Name := some "prefix" }] "prefix" "/" = false ∧
      ({ Title := some "issue1", Labels := [{ Name := some "prefix" }] } : Issue) ∈
        issuesToModify [{ Title := some "issue1", Labels := [{ Name := some "prefix" }] }]
          configPlain :=
  ⟨by decide, (label_equal_to_prefix_does_not_match "prefix" "/" (by decide)).1,
    (label_equal_to_prefix_does_not_match "prefix" "/" (by decide)).2.1
      [{ Title := some "issue1", Labels := [{ Name := some "prefix" }] }] configPlain
      { Title := some "issue1", Labels := [{ Name := some "prefix" }] }
      rfl rfl (by decide) rfl rfl (Or.inl rfl) (Or.inl rfl)⟩

/-! ## Auxiliary lemmas on `processIssues` -/

/-- One iteration of the loop of `processIssues`: the remediation calls are made, and
the outcome of the create-comment call decides between returning and going on. -/
theorem processIssuesLoop_cons (githubClient : IssuesService) (config : configuration)
    (issue : Issue) (rest : List Issue) (trace : List Call) (stdout : List String) :
    processIssuesLoop githubClient config (issue :: rest) trace stdout =
      match githubClient.CreateComment (trace ++ specAddLabelCalls config issue)
          config.repoOwner config.repoName issue.GetNumber
          { Body := some (specCommentBody config) } with
      | some err =>
        { err := some ("error adding comment: " ++ err),
          trace := trace ++ specRemediationCalls config issue,
          stdout := stdout ++ [specPrintedLine config issue] }
      | none =>
        processIssuesLoop githubClient config rest (trace ++ specRemediationCalls config issue)
          (stdout ++ [specPrintedLine config issue]) := by
  cases h : config.addLabel <;>
    simp [processIssuesLoop, specAddLabelCalls, specRemediationCalls, specCommentCall,
      specCommentBody, specPrintedLine, h]

/-- While the create-comment calls succeed, the loop goes through the issues and
records their remediation calls and printed lines. -/
theorem processIssuesLoop_append (githubClient : IssuesService) (config : configuration)
    (done rest : List Issue) (trace : List Call) (stdout : List String)
    (hdone : ∀ pre x post, done = pre ++ x :: post →
      githubClient.CreateComment
        (trace ++ pre.flatMap (specRemediationCalls config) ++ specAddLabelCalls config x)
        config.repoOwner config.repoName x.GetNumber
        { Body := some (specCommentBody config) } = none) :
    processIssuesLoop githubClient config (done ++ rest) trace stdout =
      processIssuesLoop githubClient config rest
        (trace ++ done.flatMap (specRemediationCalls config))
        (stdout ++ done.map (specPrintedLine config)) := by
  induction done generalizing trace stdout with
  | nil => simp
  | cons d ds ih =>
    have hd := hdone [] d ds rfl
    simp only [List.flatMap_nil, List.append_nil] at hd
    rw [List.cons_append, processIssuesLoop_cons, hd]
    simp only
    rw [ih]
    · simp [List.append_assoc]
    · intro pre x post hsplit
      have h := hdone (d :: pre) x post (by rw [hsplit]; rfl)
      simpa [List.append_assoc] using h

/-- A run whose listing call succeeds is the loop over the flagged issues. -/
theorem processIssues_of_list_ok (githubClient : IssuesService) (config : configuration)
    (issues : List Issue)
    (hlist : githubClient.ListByRepo [] config.repoOwner config.repoName { State := "open" } =
      Except.ok issues) :
    processIssues githubClient config =
      processIssuesLoop githubClient config (issuesToModify issues config) [listCall config] [] := by
  unfold processIssues
  rw [hlist]
  rfl

/-- A run whose listing call and create-comment calls all succeed returns no error
and makes the remediation calls of every flagged issue, in order. -/
theorem processIssues_of_comments_succeed (githubClient : IssuesService)
    (config : configuration) (issues : List Issue)
    (hlist : githubClient.ListByRepo [] config.repoOwner config.repoName { State := "open" } =
      Except.ok issues)
    (hcomments : ∀ pre x post, issuesToModify issues config = pre ++ x :: post →
      githubClient.CreateComment
        (listCall config :: pre.flatMap (specRemediationCalls config) ++
          specAddLabelCalls config x)
        config.repoOwner config.repoName x.GetNumber
        { Body := some (specCommentBody config) } = none) :
    processIssues githubClient config =
      { err := none,
        trace := listCall config ::
          (issuesToModify issues config).flatMap (specRemediationCalls config),
        stdout := (issuesToModify issues config).map (specPrintedLine config) } := by
  rw [processIssues_of_list_ok githubClient config issues hlist]
  have h := processIssuesLoop_append githubClient config (issuesToModify issues config) []
    [listCall config] [] (by
      intro pre x post hsplit
      simpa using hcomments pre x post hsplit)
  rw [List.append_nil] at h
  rw [h]
  simp [processIssuesLoop]

/-- On the empty prefix and the empty separator every name matches. -/
theorem labelsContainPrefix_empty_empty (labels : List Label) :
    labelsContainPrefix labels "" "" = true ↔ labels ≠ [] := by
  rw [labelsContainPrefix_iff_exists]
  have hall : ∀ l : Label, HasPrefix l.GetName ("" ++ "") = true := by
    intro l
    rw [hasPrefix_iff_isPrefix]
    exact List.nil_prefix
  cases labels with
  | nil => simp
  | cons l rest => simpa using Or.inl (hall l)

/-- The check of the loop body reads the configuration through `onlyMilestone`,
`labelPrefix` and `labelSeparator` only, and the issue through no assignee. -/
theorem appendsIssue_congr (config1 config2 : configuration) (a b : Issue)
    (honly : config1.onlyMilestone = config2.onlyMilestone)
    (hpre : config1.labelPrefix = config2.labelPrefix)
    (hsep : config1.labelSeparator = config2.labelSeparator)
    (hab : sameExceptAssignees a b) :
    appendsIssue config1 a = appendsIssue config2 b := by
  obtain ⟨_, _, hlabels, hmilestone, hpr⟩ := hab
  unfold appendsIssue Issue.GetPullRequestLinks Issue.GetMilestone
  rw [honly, hpre, hsep, hlabels, hmilestone, hpr]

/-- Selecting the positions at which a test holds is filtering by the test. -/
theorem selectPositions_map (p : Issue → Bool) (issues : List Issue) :
    selectPositions (issues.map p) issues = issues.filter p := by
  induction issues with
  | nil => rfl
  | cons issue rest ih =>
    cases h : p issue <;> simp [selectPositions, h, ih]

/-! ## The claims, continued -/

/-- C11: `labelsContainPrefix` on the empty label list is `false` for every prefix and
separator (both may be empty); hence, under a configuration with empty `assignees`,
every input issue with an empty label list, no pull-request marker and
(`onlyMilestone` false or a milestone present) is in the result of `issuesToModify`. -/
theorem no_labels_flagged (pfx separator : String) (issues : List Issue)
    (config : configuration) (issue : Issue) (_hassignees : config.assignees = [])
    (hmem : issue ∈ issues) (hlabels : issue.Labels = [])
    (hpr : issue.PullRequestLinks = none)
    (hmilestone : config.onlyMilestone = false ∨ issue.Milestone ≠ none) :
    labelsContainPrefix [] pfx separator = false ∧ issue ∈ issuesToModify issues config := by
  refine ⟨rfl, (mem_issuesToModify_iff issues config issue).2 ⟨hmem, hpr, hmilestone, ?_⟩⟩
  rintro ⟨l, hl, _⟩
  rw [hlabels] at hl
  exact List.not_mem_nil l hl

/-- Witness of C11 on the test case `single_issue_missing_label`, and on the empty
prefix with the empty separator. -/
theorem no_labels_flagged_witness :
    labelsContainPrefix [] "" "" = false ∧
      ({ Title := some issue1Title } : Issue) ∈
        issuesToModify [{ Title := some issue1Title }] configPlain :=
  no_labels_flagged "" "" [{ Title := some issue1Title }] configPlain
    { Title := some issue1Title } rfl (by decide) rfl rfl (Or.inl rfl)

/-- C17: the result of `issuesToModify` depends neither on `config.assignees` nor on the
assignees of the issues: for two configurations that agree on `onlyMilestone`,
`labelPrefix` and `labelSeparator` and two input lists that differ only in the
assignee lists of their issues, the results are the two inputs at the same positions
(and on one input the two configurations give the same result). -/
theorem issuesToModify_independent_of_assignees (issues1 issues2 : List Issue)
    (config1 config2 : configuration)
    (honly : config1.onlyMilestone = config2.onlyMilestone)
    (hpre : config1.labelPrefix = config2.labelPrefix)
    (hsep : config1.labelSeparator = config2.labelSeparator)
    (hissues : List.Forall₂ (fun a b => a.Number = b.Number ∧ a.Title = b.Title ∧
      a.Labels = b.Labels ∧ a.Milestone = b.Milestone ∧
      a.PullRequestLinks = b.PullRequestLinks) issues1 issues2) :
    issuesToModify issues1 config1 = issuesToModify issues1 config2 ∧
      ∃ keep : List Bool, keep.length = issues1.length ∧
        issuesToModify issues1 config1 = selectPositions keep issues1 ∧
        issuesToModify issues2 config2 = selectPositions keep issues2 := by
  constructor
  · rw [issuesToModify_eq_filter_appendsIssue, issuesToModify_eq_filter_appendsIssue]
    apply List.filter_congr
    intro issue _
    exact appendsIssue_congr config1 config2 issue issue honly hpre hsep
      ⟨rfl, rfl, rfl, rfl, rfl⟩
  · refine ⟨issues1.map (appendsIssue config1), List.length_map _ _, ?_, ?_⟩
    · rw [selectPositions_map, issuesToModify_eq_filter_appendsIssue]
    · have hmap : issues1.map (appendsIssue config1) = issues2.map (appendsIssue config2) := by
        induction hissues with
        | nil => rfl
        | cons hab _ ih =>
          rw [List.map_cons, List.map_cons, ih,
            appendsIssue_congr config1 config2 _ _ honly hpre hsep hab]
      rw [hmap, selectPositions_map, issuesToModify_eq_filter_appendsIssue]

/-- Witness of C17: the input of the test case `assignees_not_specified` against the
same issues with other assignees, under the configuration without and with
`assignees`; both issues are selected on both sides. -/
theorem issuesToModify_independent_of_assignees_witness :
    issuesToModify inputAssigneesNotSpecified configPlain =
        issuesToModify inputAssigneesNotSpecified configAssignees ∧
      ∃ keep : List Bool, keep.length = inputAssigneesNotSpecified.length ∧
        issuesToModify inputAssigneesNotSpecified configPlain =
          selectPositions keep inputAssigneesNotSpecified ∧
        issuesToModify
            [{ Title := some issue1Title, Assignees := [{ Login := some "user4" }] },
             { Title := some issue2Title }] configAssignees =
          selectPositions keep
            [{ Title := some issue1Title, Assignees := [{ Login := some "user4" }] },
             { Title := some issue2Title }] :=
  issuesToModify_independent_of_assignees inputAssigneesNotSpecified
    [{ Title := some issue1Title, Assignees := [{ Login := some "user4" }] },
     { Title := some issue2Title }] configPlain configAssignees rfl rfl rfl
    (List.Forall₂.cons ⟨rfl, rfl, rfl, rfl, rfl⟩
      (List.Forall₂.cons ⟨rfl, rfl, rfl, rfl, rfl⟩ List.Forall₂.nil))

/-- C18: `issuesToModify` is idempotent: applied to its own result under the same
configuration it returns that result. -/
theorem issuesToModify_idempotent (issues : List Issue) (config : configuration) :
    issuesToModify (issuesToModify issues config) config = issuesToModify issues config := by
  rw [issuesToModify_eq_filter_appendsIssue (issuesToModify issues config),
    issuesToModify_eq_filter_appendsIssue issues, List.filter_filter]
  simp

/-- Witness of C18 on the test case `multiple_issues`. -/
theorem issuesToModify_idempotent_witness :
    issuesToModify inputMultipleIssues configPlain = [{ Title := some issue2Title }] ∧
      issuesToModify (issuesToModify inputMultipleIssues configPlain) configPlain =
        issuesToModify inputMultipleIssues configPlain :=
  ⟨by decide, issuesToModify_idempotent inputMultipleIssues configPlain⟩

/-- C19: when `labelPrefix` and `labelSeparator` are both empty, `labelsContainPrefix`
returns `true` exactly when the label list is non-empty, whatever the names (empty
and missing ones included), so `issuesToModify` returns exactly the input issues
that are no pull request, pass the milestone gate and have no label at all. -/
theorem issuesToModify_empty_prefix_and_separator (issues : List Issue)
    (config : configuration) (hpre : config.labelPrefix = "")
    (hsep : config.labelSeparator = "") :
    (∀ labels : List Label,
        labelsContainPrefix labels config.labelPrefix config.labelSeparator = true ↔
          labels ≠ []) ∧
      issuesToModify issues config =
        issues.filter (fun issue => decide (issue.PullRequestLinks = none ∧
          (config.onlyMilestone = false ∨ issue.Milestone ≠ none) ∧ issue.Labels = [])) := by
  have hall : ∀ labels : List Label,
      labelsContainPrefix labels config.labelPrefix config.labelSeparator = true ↔
        labels ≠ [] := by
    intro labels
    rw [hpre, hsep]
    exact labelsContainPrefix_empty_empty labels
  refine ⟨hall, ?_⟩
  rw [issuesToModify_eq_filter_appendsIssue]
  apply List.filter_congr
  intro issue _
  rw [Bool.eq_iff_iff, appendsIssue_iff, decide_eq_true_iff, ← labelsContainPrefix_iff_spec,
    hall, not_not]
  rfl

/-- Witness of C19: with the empty prefix and separator, a label with a missing name
and a label with the empty name both count, and of three issues only the one
without labels is returned. -/
theorem issuesToModify_empty_prefix_and_separator_witness :
    labelsContainPrefix [{ Name := none }] "" "" = true ∧
      labelsContainPrefix [{ Name := some "" }] "" "" = true ∧
      issuesToModify
          [{ Title := some "issue1", Labels := [{ Name := none }] },
           { Title := some "issue2" },
           { Title := some "issue3", Labels := [{ Name := some "bug" }] }] {} =
        [{ Title := some "issue2" }] ∧
      issuesToModify
          [{ Title := some "issue1", Labels := [{ Name := none }] },
           { Title := some "issue2" },
           { Title := some "issue3", Labels := [{ Name := some "bug" }] }] {} =
        List.filter (fun issue => decide (issue.PullRequestLinks = none ∧
          (({} : configuration).onlyMilestone = false ∨ issue.Milestone ≠ none) ∧
          issue.Labels = []))
          [{ Title := some "issue1", Labels := [{ Name := none }] },
           { Title := some "issue2" },
           { Title := some "issue3", Labels := [{ Name := some "bug" }] }] :=
  ⟨by decide, by decide, by decide,
    (issuesToModify_empty_prefix_and_separator
      [{ Title := some "issue1", Labels := [{ Name := none }] },
       { Title := some "issue2" },
       { Title := some "issue3", Labels := [{ Name := some "bug" }] }] {} rfl rfl).2⟩

/-! ## Further lemmas on the loop of `processIssues` -/

/-- The loop reads the tracker through its `CreateComment` answers only. -/
theorem processIssuesLoop_congr (client1 client2 : IssuesService) (config : configuration)
    (hcomment : client1.CreateComment = client2.CreateComment) (flagged : List Issue)
    (trace : List Call) (stdout : List String) :
    processIssuesLoop client1 config flagged trace stdout =
      processIssuesLoop client2 config flagged trace stdout := by
  induction flagged generalizing trace stdout with
  | nil => simp [processIssuesLoop]
  | cons issue rest ih =>
    rw [processIssuesLoop_cons, processIssuesLoop_cons, hcomment]
    cases client2.CreateComment (trace ++ specAddLabelCalls config issue) config.repoOwner
        config.repoName issue.GetNumber { Body := some (specCommentBody config) } with
    | none => exact ih _ _
    | some err => rfl

/-- The calls of the loop are the remediation calls of a leading part of the flagged
issues, after the calls made before. -/
theorem processIssuesLoop_trace (githubClient : IssuesService) (config : configuration)
    (flagged : List Issue) (trace : List Call) (stdout : List String) :
    ∃ k, (processIssuesLoop githubClient config flagged trace stdout).trace =
      trace ++ (flagged.take k).flatMap (specRemediationCalls config) := by
  induction flagged generalizing trace stdout with
  | nil => exact ⟨0, by simp [processIssuesLoop]⟩
  | cons issue rest ih =>
    rw [processIssuesLoop_cons]
    cases githubClient.CreateComment (trace ++ specAddLabelCalls config issue) config.repoOwner
        config.repoName issue.GetNumber { Body := some (specCommentBody config) } with
    | none =>
      obtain ⟨k, hk⟩ := ih (trace ++ specRemediationCalls config issue)
        (stdout ++ [specPrintedLine config issue])
      exact ⟨k + 1, by simp [hk, List.append_assoc]⟩
    | some err => exact ⟨1, by simp⟩

/-- The calls of a run are the listing call followed by the remediation calls of a
leading part of some list of issues. -/
theorem processIssues_trace (githubClient : IssuesService) (config : configuration) :
    ∃ done : List Issue, (processIssues githubClient config).trace =
      listCall config :: done.flatMap (specRemediationCalls config) := by
  unfold processIssues
  cases githubClient.ListByRepo [] config.repoOwner config.repoName { State := "open" } with
  | error err => exact ⟨[], rfl⟩
  | ok issues =>
    obtain ⟨k, hk⟩ := processIssuesLoop_trace githubClient config (issuesToModify issues config)
      [listCall config] []
    exact ⟨(issuesToModify issues config).take k, by simpa using hk⟩

/-! ## The claims about `processIssues` -/

open ExampleRun

/-- C12: when the open-issue listing call fails with error `e`, `processIssues` returns
an error whose message is `"error getting issues: "` followed by the message of `e`,
and the listing call is the only call made: no add-label and no create-comment call. -/
theorem processIssues_list_error (githubClient : IssuesService) (config : configuration)
    (e : String)
    (hlist : githubClient.ListByRepo [] config.repoOwner config.repoName { State := "open" } =
      Except.error e) :
    (processIssues githubClient config).err = some ("error getting issues: " ++ e) ∧
      (processIssues githubClient config).trace =
        [Call.ListByRepo config.repoOwner config.repoName { State := "open" }] ∧
      (∀ c ∈ (processIssues githubClient config).trace,
        (∀ owner repo number labels, c ≠ Call.AddLabelsToIssue owner repo number labels) ∧
        (∀ owner repo number comment, c ≠ Call.CreateComment owner repo number comment)) := by
  have hrun : processIssues githubClient config =
      { err := some ("error getting issues: " ++ e),
        trace := [Call.ListByRepo config.repoOwner config.repoName { State := "open" }],
        stdout := [] } := by
    unfold processIssues
    rw [hlist]
  rw [hrun]
  refine ⟨rfl, rfl, ?_⟩
  intro c hc
  rw [List.mem_singleton] at hc
  subst hc
  exact ⟨fun _ _ _ _ h => Call.noConfusion h, fun _ _ _ _ h => Call.noConfusion h⟩

/-- Witness of C12: the listing call fails with `"rate limited"`. -/
theorem processIssues_list_error_witness :
    (processIssues trackerListFails configAddLabel).err =
        some "error getting issues: rate limited" ∧
      (processIssues trackerListFails configAddLabel).trace =
        [Call.ListByRepo "owner" "repo" { State := "open" }] :=
  ⟨(processIssues_list_error trackerListFails configAddLabel "rate limited" rfl).1,
    (processIssues_list_error trackerListFails configAddLabel "rate limited" rfl).2.1⟩

/-- C13: when the flagged issues are `done ++ issue :: later`, the create-comment calls
for the issues of `done` succeed and the one for `issue` (the flagged issue number
`done.length + 1`) fails with `e`, `processIssues` returns an error whose message
starts with `"error adding comment: "`, and its calls are the listing call followed
by the remediation calls of exactly the first `done.length + 1` flagged issues: those
of `done` stay made, and no call is made for an issue of `later`. -/
theorem processIssues_comment_error (githubClient : IssuesService) (config : configuration)
    (issues done later : List Issue) (issue : Issue) (e : String)
    (hlist : githubClient.ListByRepo [] config.repoOwner config.repoName { State := "open" } =
      Except.ok issues)
    (hflagged : issuesToModify issues config = done ++ issue :: later)
    (hearlier : commentCallsSucceed githubClient config done)
    (hfail : githubClient.CreateComment
      (listCall config :: done.flatMap (specRemediationCalls config) ++
        specAddLabelCalls config issue)
      config.repoOwner config.repoName issue.GetNumber
      { Body := some (specCommentBody config) } = some e) :
    (processIssues githubClient config).err = some ("error adding comment: " ++ e) ∧
      (processIssues githubClient config).trace =
        listCall config ::
          ((issuesToModify issues config).take (done.length + 1)).flatMap
            (specRemediationCalls config) ∧
      (issuesToModify issues config).take (done.length + 1) = done ++ [issue] := by
  have htake : (issuesToModify issues config).take (done.length + 1) = done ++ [issue] := by
    rw [hflagged, List.take_append_eq_append_take]
    simp
  have hrun : processIssues githubClient config =
      { err := some ("error adding comment: " ++ e),
        trace := listCall config :: (done ++ [issue]).flatMap (specRemediationCalls config),
        stdout := (done ++ [issue]).map (specPrintedLine config) } := by
    rw [processIssues_of_list_ok githubClient config issues hlist, hflagged,
      processIssuesLoop_append githubClient config done (issue :: later) [listCall config] []
        (by
          intro pre x post hsplit
          simpa using hearlier pre x post hsplit),
      processIssuesLoop_cons]
    have hfail1 : githubClient.CreateComment
        ([listCall config] ++ done.flatMap (specRemediationCalls config) ++
          specAddLabelCalls config issue)
        config.repoOwner config.repoName issue.GetNumber
        { Body := some (specCommentBody config) } = some e := by
      simpa using hfail
    rw [hfail1]
    simp [List.append_assoc]
  rw [htake, hrun]
  exact ⟨rfl, rfl, rfl⟩

/-- Witness of C13: issues 42, 44 and 45 are flagged, labels are added, and the comment
on issue 44 fails: the calls for 42 and 44 are made, none for 45. -/
theorem processIssues_comment_error_witness :
    issuesToModify openIssues configAddLabel = [issue42] ++ issue44 :: [issue45] ∧
      (processIssues trackerCommentFails configAddLabel).err =
        some "error adding comment: issue locked" ∧
      (processIssues trackerCommentFails configAddLabel).trace =
        [Call.ListByRepo "owner" "repo" { State := "open" },
         Call.AddLabelsToIssue "owner" "repo" 42 ["triage"],
         Call.CreateComment "owner" "repo" 42
           { Body := some "Added default label `triage`. Please consider re-labeling this issue appropriately." },
         Call.AddLabelsToIssue "owner" "repo" 44 ["triage"],
         Call.CreateComment "owner" "repo" 44
           { Body := some "Added default label `triage`. Please consider re-labeling this issue appropriately." }] := by
  have h := processIssues_comment_error trackerCommentFails configAddLabel openIssues
    [issue42] [issue45] issue44 "issue locked" rfl (by decide)
    (by
      intro pre x post hsplit
      cases pre with
      | nil =>
        simp only [List.nil_append, List.cons.injEq] at hsplit
        rw [← hsplit.1]
        rfl
      | cons p ps => simp at hsplit)
    rfl
  refine ⟨by decide, h.1, ?_⟩
  rw [h.2.1]
  decide

/-- C14: when `config.addLabel` is true and the listing call and all create-comment
calls succeed, `processIssues` returns no error and its calls after the listing call
are, for each issue of `issuesToModify issues config` in order, one add-label call for
the number of the issue with the list `[config.defaultLabel]`, immediately followed by
one create-comment call for that number whose body contains `config.defaultLabel`;
there is no other call. -/
theorem processIssues_addLabel_trace (githubClient : IssuesService) (config : configuration)
    (issues : List Issue) (hadd : config.addLabel = true)
    (hlist : githubClient.ListByRepo [] config.repoOwner config.repoName { State := "open" } =
      Except.ok issues)
    (hcomments : commentCallsSucceed githubClient config (issuesToModify issues config)) :
    (processIssues githubClient config).err = none ∧
      (processIssues githubClient config).trace =
        Call.ListByRepo config.repoOwner config.repoName { State := "open" } ::
          (issuesToModify issues config).flatMap (fun issue =>
            [Call.AddLabelsToIssue config.repoOwner config.repoName issue.GetNumber
               [config.defaultLabel],
             Call.CreateComment config.repoOwner config.repoName issue.GetNumber
               { Body := some ("Added default label `" ++ config.defaultLabel ++
                  "`. Please consider re-labeling this issue appropriately.") }]) := by
  rw [processIssues_of_comments_succeed githubClient config issues hlist hcomments]
  refine ⟨rfl, ?_⟩
  have hrem : specRemediationCalls config = fun issue =>
      [Call.AddLabelsToIssue config.repoOwner config.repoName issue.GetNumber
         [config.defaultLabel],
       Call.CreateComment config.repoOwner config.repoName issue.GetNumber
         { Body := some ("Added default label `" ++ config.defaultLabel ++
            "`. Please consider re-labeling this issue appropriately.") }] := by
    funext issue
    simp [specRemediationCalls, specAddLabelCalls, specCommentCall, specCommentBody, hadd]
  rw [hrem]
  rfl

/-- Witness of C14: issues 42, 44 and 45 are flagged; each gets the label `triage` and
a comment that names it. -/
theorem processIssues_addLabel_trace_witness :
    (processIssues trackerOk configAddLabel).err = none ∧
      (processIssues trackerOk configAddLabel).trace =
        [Call.ListByRepo "owner" "repo" { State := "open" },
         Call.AddLabelsToIssue "owner" "repo" 42 ["triage"],
         Call.CreateComment "owner" "repo" 42
           { Body := some "Added default label `triage`. Please consider re-labeling this issue appropriately." },
         Call.AddLabelsToIssue "owner" "repo" 44 ["triage"],
         Call.CreateComment "owner" "repo" 44
           { Body := some "Added default label `triage`. Please consider re-labeling this issue appropriately." },
         Call.AddLabelsToIssue "owner" "repo" 45 ["triage"],
         Call.CreateComment "owner" "repo" 45
           { Body := some "Added default label `triage`. Please consider re-labeling this issue appropriately." }] := by
  have h := processIssues_addLabel_trace trackerOk configAddLabel openIssues rfl rfl
    (fun _ _ _ _ => rfl)
  refine ⟨h.1, ?_⟩
  rw [h.2]
  decide

/-- C15: when `config.addLabel` is false and the listing call and all create-comment
calls succeed, `processIssues` returns no error, makes no add-label call, and makes
one create-comment call per issue of `issuesToModify issues config`, in that order,
each with a body that contains `config.labelPrefix ++ config.labelSeparator`; there
is no other call after the listing call. -/
theorem processIssues_comment_only_trace (githubClient : IssuesService)
    (config : configuration) (issues : List Issue) (hadd : config.addLabel = false)
    (hlist : githubClient.ListByRepo [] config.repoOwner config.repoName { State := "open" } =
      Except.ok issues)
    (hcomments : commentCallsSucceed githubClient config (issuesToModify issues config)) :
    (processIssues githubClient config).err = none ∧
      (processIssues githubClient config).trace =
        Call.ListByRepo config.repoOwner config.repoName { State := "open" } ::
          (issuesToModify issues config).map (fun issue =>
            Call.CreateComment config.repoOwner config.repoName issue.GetNumber
              { Body := some ("No label with prefix \"" ++
                  (config.labelPrefix ++ config.labelSeparator) ++
                  "\" found. Please add the appropriate label.") }) ∧
      (∀ c ∈ (processIssues githubClient config).trace,
        ∀ owner repo number labels, c ≠ Call.AddLabelsToIssue owner repo number labels) := by
  have htrace : (processIssues githubClient config).trace =
      Call.ListByRepo config.repoOwner config.repoName { State := "open" } ::
        (issuesToModify issues config).map (fun issue =>
          Call.CreateComment config.repoOwner config.repoName issue.GetNumber
            { Body := some ("No label with prefix \"" ++
                (config.labelPrefix ++ config.labelSeparator) ++
                "\" found. Please add the appropriate label.") }) := by
    rw [processIssues_of_comments_succeed githubClient config issues hlist hcomments]
    have hrem : specRemediationCalls config = fun issue =>
        [Call.CreateComment config.repoOwner config.repoName issue.GetNumber
          { Body := some ("No label with prefix \"" ++
              (config.labelPrefix ++ config.labelSeparator) ++
              "\" found. Please add the appropriate label.") }] := by
      funext issue
      simp [specRemediationCalls, specAddLabelCalls, specCommentCall, specCommentBody, hadd,
        String.append_assoc]
    rw [hrem]
    show listCall config :: _ = listCall config :: _
    congr 1
    induction issuesToModify issues config with
    | nil => rfl
    | cons issue rest ih => simp [ih]
  refine ⟨?_, htrace, ?_⟩
  · rw [processIssues_of_comments_succeed githubClient config issues hlist hcomments]
  · rw [htrace]
    intro c hc owner repo number labels heq
    subst heq
    rcases List.mem_cons.1 hc with h | h
    · exact Call.noConfusion h
    · obtain ⟨issue, _, h⟩ := List.mem_map.1 h
      exact Call.noConfusion h

/-- Witness of C15: issues 42, 44 and 45 are flagged; each gets one comment that names
the prefix `type/`, and no label is added. -/
theorem processIssues_comment_only_trace_witness :
    (processIssues trackerOk configCommentOnly).err = none ∧
      (processIssues trackerOk configCommentOnly).trace =
        [Call.ListByRepo "owner" "repo" { State := "open" },
         Call.CreateComment "owner" "repo" 42
           { Body := some "No label with prefix \"type/\" found. Please add the appropriate label." },
         Call.CreateComment "owner" "repo" 44
           { Body := some "No label with prefix \"type/\" found. Please add the appropriate label." },
         Call.CreateComment "owner" "repo" 45
           { Body := some "No label with prefix \"type/\" found. Please add the appropriate label." }] := by
  have h := processIssues_comment_only_trace trackerOk configCommentOnly openIssues rfl rfl
    (fun _ _ _ _ => rfl)
  refine ⟨h.1, ?_⟩
  rw [h.2.1]
  decide

/-- C16: the outcome of the add-label calls never influences `processIssues`: two
trackers that answer the listing call and the create-comment calls alike, and differ
only in which add-label calls succeed, give the same returned error, the same
sequence of calls and the same printed lines; and when `addLabel` is set, every
comment of the run announces that the default label was added, whatever became of
the add-label call. -/
theorem processIssues_ignores_addLabel_outcome (client1 client2 : IssuesService)
    (config : configuration) (hlist : client1.ListByRepo = client2.ListByRepo)
    (hcomment : client1.CreateComment = client2.CreateComment) :
    processIssues client1 config = processIssues client2 config ∧
      (config.addLabel = true →
        ∀ owner repo number comment,
          Call.CreateComment owner repo number comment ∈ (processIssues client1 config).trace →
          comment = { Body := some ("Added default label `" ++ config.defaultLabel ++
            "`. Please consider re-labeling this issue appropriately.") }) := by
  constructor
  · unfold processIssues
    rw [hlist]
    cases client2.ListByRepo [] config.repoOwner config.repoName { State := "open" } with
    | error err => rfl
    | ok issues => exact processIssuesLoop_congr client1 client2 config hcomment _ _ _
  · intro hadd owner repo number comment hmem
    obtain ⟨done, hdone⟩ := processIssues_trace client1 config
    rw [hdone] at hmem
    rcases List.mem_cons.1 hmem with h | h
    · exact Call.noConfusion h
    · obtain ⟨issue, _, hcall⟩ := List.mem_flatMap.1 h
      simp only [specRemediationCalls, specAddLabelCalls, specCommentCall, specCommentBody,
        hadd, if_true, List.singleton_append, List.mem_cons, List.mem_singleton,
        List.not_mem_nil, or_false, false_or, Call.CreateComment.injEq] at hcall
      rcases hcall with h | h
      · exact Call.noConfusion h
      · exact h.2.2.2

/-- Witness of C16: on a tracker whose add-label calls all fail the run is the same as
on one where they succeed, and the comments still say the label was added. -/
theorem processIssues_ignores_addLabel_outcome_witness :
    trackerAddLabelFails.AddLabelsToIssue [] "owner" "repo" 42 ["triage"] =
        some "label does not exist" ∧
      trackerOk.AddLabelsToIssue [] "owner" "repo" 42 ["triage"] = none ∧
      processIssues trackerAddLabelFails configAddLabel = processIssues trackerOk configAddLabel ∧
      (processIssues trackerAddLabelFails configAddLabel).err = none ∧
      Call.CreateComment "owner" "repo" 42
          { Body := some "Added default label `triage`. Please consider re-labeling this issue appropriately." } ∈
        (processIssues trackerAddLabelFails configAddLabel).trace :=
  ⟨rfl, rfl,
    (processIssues_ignores_addLabel_outcome trackerAddLabelFails trackerOk configAddLabel
      rfl rfl).1,
    by decide, by decide⟩

end RequireLabelPrefix
